import Mathlib

/-!
Shallow embedding of the offline-first sync and caching engine of
`trilakes/field-app` (files `src/unnamed/part_001` — offline storage / sync
manager and visit page — and `src/static/sw.js` — the service worker), with
theorems settling the specification claims about it.
-/

namespace FieldApp

/-- A JSON-like value, the shape of the `data` payloads the app stores and
ships (`JSON.stringify(item.data)` in `syncPendingData`) without inspecting
them, so scalars suffice to model the payloads the claims quantify over. -/
inductive JValue where
  | str : String → JValue
  | num : Int → JValue
  | bool : Bool → JValue
  | null : JValue
deriving DecidableEq, Repr

/-- A record of the `sync_queue` object store (`initOfflineDB`,
`src/unnamed/part_001` lines 234-238): keyPath `id` with `autoIncrement`,
and the fields written by `addToSyncQueue` (lines 388-404):
`action` (the HTTP verb), `endpoint`, `data`, `timestamp` (`Date.now()`
at enqueue time) and `attempts`. -/
structure SyncEntry where
  id : Nat
  action : String
  endpoint : String
  data : JValue
  timestamp : Nat
  attempts : Nat
deriving DecidableEq, Repr

/-- `addToSyncQueue(action, endpoint, data)` (`src/unnamed/part_001` lines
388-404): `store.add({action, endpoint, data, timestamp: Date.now(),
attempts: 0})` on the `sync_queue` store.  The store is modelled as a list
kept in ascending key order; `add` with an auto-increment keyPath appends
the record with the next generated key `nextId` (strictly above every
existing key).  `now` is the value of `Date.now()` at the call. -/
def addToSyncQueue (q : List SyncEntry) (nextId : Nat) (action endpoint : String)
    (data : JValue) (now : Nat) : List SyncEntry :=
  q ++ [{ id := nextId, action := action, endpoint := endpoint, data := data,
          timestamp := now, attempts := 0 }]

/-- The JS object persisted for a queue record, as the key/value list
IndexedDB stores: the literal of `addToSyncQueue` in source order, with the
auto-increment key injected at keyPath `id` by the store. -/
def persistedSyncObject (e : SyncEntry) : List (String × JValue) :=
  [("action", JValue.str e.action),
   ("endpoint", JValue.str e.endpoint),
   ("data", e.data),
   ("timestamp", JValue.num e.timestamp),
   ("attempts", JValue.num e.attempts),
   ("id", JValue.num e.id)]

/-- The key set of the persisted queue record. -/
def persistedSyncKeys (e : SyncEntry) : List String :=
  (persistedSyncObject e).map Prod.fst

/-- Modelled from the spec (§6): the persisted `SyncQueueEntry` shape the
specification asserts, `{ id, method, endpoint, payload, enqueueTimestamp,
attempts }`.  Stated for comparison with `persistedSyncKeys`. -/
def specSyncEntryShape : List String :=
  ["id", "method", "endpoint", "payload", "enqueueTimestamp", "attempts"]

/-- `getPendingSyncs()` (`src/unnamed/part_001` lines 407-417):
`store.getAll()` on the `sync_queue` store, which yields the records in
ascending key (`id`) order; the store list is maintained in that order, so
this is the list itself. -/
def getPendingSyncs (q : List SyncEntry) : List SyncEntry := q

/-- `removeFromSyncQueue(id)` (`src/unnamed/part_001` lines 420-430):
`store.delete(id)` on the `sync_queue` store. -/
def removeFromSyncQueue (q : List SyncEntry) (id : Nat) : List SyncEntry :=
  q.filter (fun e => e.id ≠ id)

/-- Outcome of one `fetch` of a queue entry inside `syncPendingData`:
the response was ok, the response was received but not ok, or the fetch
threw (network failure). -/
inductive NetOutcome where
  | ok : NetOutcome
  | httpError : NetOutcome
  | netFail : NetOutcome
deriving DecidableEq, Repr

/-- State threaded through the `for (const item of pending)` loop of
`syncPendingData` (`src/unnamed/part_001` lines 433-465): the current
`sync_queue` store contents, the `synced` and `failed` counters, and the
trace of entries submitted to `fetch`, in submission order. -/
structure DrainState where
  queue : List SyncEntry
  synced : Nat
  failed : Nat
  log : List SyncEntry
deriving DecidableEq, Repr

/-- The body of the `for (const item of pending)` loop of `syncPendingData`:
each item is submitted once (`fetch(item.endpoint, {method: item.action,
body: JSON.stringify(item.data)})`); on `response.ok` the entry is removed
from the store and `synced++`; on a non-ok response or a thrown fetch,
`failed++` and the loop continues with the next item.  `net` gives the
transport's outcome for each submitted entry. -/
def drainLoop (net : SyncEntry → NetOutcome) :
    List SyncEntry → DrainState → DrainState
  | [], s => s
  | item :: rest, s =>
    let s1 : DrainState := { s with log := s.log ++ [item] }
    let s2 : DrainState :=
      match net item with
      | NetOutcome.ok =>
          { s1 with queue := removeFromSyncQueue s1.queue item.id,
                    synced := s1.synced + 1 }
      | NetOutcome.httpError => { s1 with failed := s1.failed + 1 }
      | NetOutcome.netFail => { s1 with failed := s1.failed + 1 }
    drainLoop net rest s2

/-- `syncPendingData()` (`src/unnamed/part_001` lines 433-465): if offline
(`!isOnline()`), return `{synced: 0, failed: 0}` without touching the queue;
otherwise snapshot the queue with `getPendingSyncs()` and run the loop over
that snapshot. -/
def syncPendingData (net : SyncEntry → NetOutcome) (online : Bool)
    (q : List SyncEntry) : DrainState :=
  if online then drainLoop net (getPendingSyncs q) ⟨q, 0, 0, []⟩
  else ⟨q, 0, 0, []⟩

/-- Which store entries survive a drain over snapshot `pending`: an entry is
deleted exactly when some processed snapshot item with its id got an ok
response. -/
def survives (net : SyncEntry → NetOutcome) (pending : List SyncEntry)
    (e : SyncEntry) : Bool :=
  !(pending.any (fun it => decide (it.id = e.id) && decide (net it = NetOutcome.ok)))

theorem survives_nil (net : SyncEntry → NetOutcome) (e : SyncEntry) :
    survives net [] e = true := by
  simp [survives]

theorem survives_cons (net : SyncEntry → NetOutcome) (it : SyncEntry)
    (rest : List SyncEntry) (e : SyncEntry) :
    survives net (it :: rest) e =
      (!(decide (it.id = e.id) && decide (net it = NetOutcome.ok)) &&
        survives net rest e) := by
  simp [survives, List.any_cons, Bool.not_or]

theorem drainLoop_log (net : SyncEntry → NetOutcome) :
    ∀ (pending : List SyncEntry) (s : DrainState),
      (drainLoop net pending s).log = s.log ++ pending := by
  intro pending
  induction pending with
  | nil => intro s; simp [drainLoop]
  | cons item rest ih =>
      intro s
      cases h : net item <;> simp [drainLoop, h, ih]

theorem drainLoop_queue (net : SyncEntry → NetOutcome) :
    ∀ (pending : List SyncEntry) (s : DrainState),
      (drainLoop net pending s).queue = s.queue.filter (survives net pending) := by
  intro pending
  induction pending with
  | nil =>
      intro s
      simp only [drainLoop]
      symm
      apply List.filter_eq_self.mpr
      intro e _
      exact survives_nil net e
  | cons item rest ih =>
      intro s
      cases h : net item with
      | ok =>
          simp only [drainLoop, h]
          rw [ih]
          simp only [removeFromSyncQueue, List.filter_filter]
          apply List.filter_congr
          intro e _
          by_cases hid : item.id = e.id
          · simp [survives_cons, h, hid]
          · have hid2 : ¬ e.id = item.id := fun hh => hid hh.symm
            simp [survives_cons, h, hid, hid2]
      | httpError =>
          simp only [drainLoop, h]
          rw [ih]
          apply List.filter_congr
          intro e _
          simp [survives_cons, h]
      | netFail =>
          simp only [drainLoop, h]
          rw [ih]
          apply List.filter_congr
          intro e _
          simp [survives_cons, h]

theorem idsNodup_of_idsMono {q : List SyncEntry}
    (h : (q.map SyncEntry.id).Pairwise (· < ·)) : (q.map SyncEntry.id).Nodup :=
  h.imp (fun hlt => Nat.ne_of_lt hlt)

theorem entry_eq_of_id_eq {q : List SyncEntry}
    (hids : (q.map SyncEntry.id).Nodup) {a b : SyncEntry}
    (ha : a ∈ q) (hb : b ∈ q) (hab : a.id = b.id) : a = b :=
  List.inj_on_of_nodup_map hids ha hb hab

theorem syncPendingData_queue (net : SyncEntry → NetOutcome) (q : List SyncEntry) :
    (syncPendingData net true q).queue = q.filter (survives net q) := by
  simp only [syncPendingData, if_pos]
  rw [drainLoop_queue]
  rfl

theorem survives_iff (net : SyncEntry → NetOutcome) {q : List SyncEntry}
    (hids : (q.map SyncEntry.id).Nodup) {e : SyncEntry} (he : e ∈ q) :
    survives net q e = true ↔ net e ≠ NetOutcome.ok := by
  simp only [survives, Bool.not_eq_true', List.any_eq_false, Bool.and_eq_true,
    decide_eq_true_eq, not_and]
  constructor
  · intro h hok
    exact h e he rfl hok
  · intro hne it hit hid hok
    exact hne ((entry_eq_of_id_eq hids hit he hid) ▸ hok)

/-- C1: a single online invocation of `syncPendingData` over a pending queue
whose ids are strictly increasing submits exactly one network attempt per
pending entry, in FIFO (ascending id) order; the submission trace equals the
`getPendingSyncs` snapshot itself, independent of any per-entry outcome, so a
failed attempt never prevents the attempts on subsequent entries. -/
theorem claimC1_drain_fifo_one_attempt_each (net : SyncEntry → NetOutcome)
    (q : List SyncEntry) (hne : q ≠ [])
    (hmono : (q.map SyncEntry.id).Pairwise (· < ·)) :
    (syncPendingData net true q).log = getPendingSyncs q ∧
    ((syncPendingData net true q).log.map SyncEntry.id).Pairwise (· < ·) ∧
    (∀ e ∈ getPendingSyncs q, (syncPendingData net true q).log.count e = 1) ∧
    (∀ net2 : SyncEntry → NetOutcome,
      (syncPendingData net true q).log = (syncPendingData net2 true q).log) := by
  have hlog : ∀ n : SyncEntry → NetOutcome, (syncPendingData n true q).log = q := by
    intro n
    simp only [syncPendingData, if_pos]
    rw [drainLoop_log]
    simp [getPendingSyncs]
  have hnodup : q.Nodup := (idsNodup_of_idsMono hmono).of_map
  refine ⟨hlog net, ?_, ?_, fun net2 => (hlog net).trans (hlog net2).symm⟩
  · rw [hlog net]; exact hmono
  · intro e he
    rw [hlog net]
    exact List.count_eq_one_of_mem hnodup he

def wEntry1 : SyncEntry :=
  ⟨1, "POST", "/api/projects/p1/gps", JValue.null, 5, 0⟩

def wEntry2 : SyncEntry :=
  ⟨2, "PUT", "/api/projects/p1", JValue.bool true, 7, 0⟩

def wNet : SyncEntry → NetOutcome :=
  fun e => if e.id = 1 then NetOutcome.netFail else NetOutcome.ok

theorem claimC1_witness :
    ([wEntry1, wEntry2] ≠ ([] : List SyncEntry)) ∧
    (([wEntry1, wEntry2].map SyncEntry.id).Pairwise (· < ·)) ∧
    ((syncPendingData wNet true [wEntry1, wEntry2]).log =
        getPendingSyncs [wEntry1, wEntry2] ∧
      (((syncPendingData wNet true [wEntry1, wEntry2]).log.map
          SyncEntry.id).Pairwise (· < ·)) ∧
      (∀ e ∈ getPendingSyncs [wEntry1, wEntry2],
        (syncPendingData wNet true [wEntry1, wEntry2]).log.count e = 1) ∧
      (∀ net2 : SyncEntry → NetOutcome,
        (syncPendingData wNet true [wEntry1, wEntry2]).log =
          (syncPendingData net2 true [wEntry1, wEntry2]).log)) :=
  ⟨by decide, by decide,
    claimC1_drain_fifo_one_attempt_each wNet [wEntry1, wEntry2]
      (by decide) (by decide)⟩

/-- C2: a queue entry processed by `syncPendingData` is removed from the
persistent queue if and only if the transport acknowledged it
(`response.ok`); on a non-ok response or a thrown fetch it stays queued. -/
theorem claimC2_removed_iff_acknowledged (net : SyncEntry → NetOutcome)
    (q : List SyncEntry) (hids : (q.map SyncEntry.id).Nodup)
    (e : SyncEntry) (he : e ∈ q) :
    (e ∉ (syncPendingData net true q).queue ↔ net e = NetOutcome.ok) := by
  rw [syncPendingData_queue, List.mem_filter]
  constructor
  · intro hout
    by_contra hne
    exact hout ⟨he, (survives_iff net hids he).mpr hne⟩
  · intro hok hmem
    exact ((survives_iff net hids he).mp hmem.2) hok

theorem claimC2_witness :
    (([wEntry1, wEntry2].map SyncEntry.id).Nodup ∧ wEntry1 ∈ [wEntry1, wEntry2]) ∧
    (wEntry1 ∉ (syncPendingData wNet true [wEntry1, wEntry2]).queue ↔
      wNet wEntry1 = NetOutcome.ok) :=
  ⟨⟨by decide, by decide⟩,
    claimC2_removed_iff_acknowledged wNet [wEntry1, wEntry2] (by decide)
      wEntry1 (by decide)⟩

def cexC3Entry : SyncEntry :=
  ⟨1, "POST", "/api/projects/p1/gps", JValue.null, 5, 0⟩

def cexC3Net : SyncEntry → NetOutcome := fun _ => NetOutcome.netFail

theorem claimC3_counterexample :
    cexC3Entry ∈ [cexC3Entry] ∧
    cexC3Net cexC3Entry ≠ NetOutcome.ok ∧
    ¬ ∃ e' ∈ (syncPendingData cexC3Net true [cexC3Entry]).queue,
        e'.id = cexC3Entry.id ∧ e'.attempts = cexC3Entry.attempts + 1 := by
  decide

/-- C3: amended — when an entry's network attempt fails (non-ok response or
exception), the entry stays in the queue with its persisted `attempts`
counter UNCHANGED (`syncPendingData` never increments the stored field; only
the invocation-local `failed` counter grows), and iteration still covers
every pending entry. -/
theorem claimC3_failed_entry_kept_unchanged (net : SyncEntry → NetOutcome)
    (q : List SyncEntry) (hids : (q.map SyncEntry.id).Nodup)
    (e : SyncEntry) (he : e ∈ q) (hfail : net e ≠ NetOutcome.ok) :
    e ∈ (syncPendingData net true q).queue ∧
    (∀ e' ∈ (syncPendingData net true q).queue,
      e'.id = e.id → e'.attempts = e.attempts) ∧
    (syncPendingData net true q).log = getPendingSyncs q := by
  refine ⟨?_, ?_, ?_⟩
  · rw [syncPendingData_queue, List.mem_filter]
    exact ⟨he, (survives_iff net hids he).mpr hfail⟩
  · intro e' he' hid
    rw [syncPendingData_queue, List.mem_filter] at he'
    rw [entry_eq_of_id_eq hids he'.1 he hid]
  · simp only [syncPendingData, if_pos]
    rw [drainLoop_log]
    simp [getPendingSyncs]

theorem claimC3_witness :
    (([cexC3Entry].map SyncEntry.id).Nodup ∧ cexC3Entry ∈ [cexC3Entry] ∧
      cexC3Net cexC3Entry ≠ NetOutcome.ok) ∧
    (cexC3Entry ∈ (syncPendingData cexC3Net true [cexC3Entry]).queue ∧
      (∀ e' ∈ (syncPendingData cexC3Net true [cexC3Entry]).queue,
        e'.id = cexC3Entry.id → e'.attempts = cexC3Entry.attempts) ∧
      (syncPendingData cexC3Net true [cexC3Entry]).log =
        getPendingSyncs [cexC3Entry]) :=
  ⟨⟨by decide, by decide, by decide⟩,
    claimC3_failed_entry_kept_unchanged cexC3Net [cexC3Entry] (by decide)
      cexC3Entry (by decide) (by decide)⟩

def cexC9Entry : SyncEntry :=
  ⟨1, "POST", "/api/projects/p1/gps", JValue.null, 42, 0⟩

theorem claimC9_counterexample :
    persistedSyncKeys cexC9Entry ≠ specSyncEntryShape ∧
    ¬ (persistedSyncKeys cexC9Entry).Perm specSyncEntryShape ∧
    "method" ∉ persistedSyncKeys cexC9Entry ∧
    "payload" ∉ persistedSyncKeys cexC9Entry ∧
    "enqueueTimestamp" ∉ persistedSyncKeys cexC9Entry := by
  refine ⟨by decide, ?_, by decide, by decide, by decide⟩
  intro hperm
  exact (by decide : "method" ∉ persistedSyncKeys cexC9Entry)
    (hperm.mem_iff.mpr (by decide))

/-- C9: amended — `addToSyncQueue(action, endpoint, data)` appends exactly
one entry, with `attempts = 0`, the auto-increment key as `id`, and the
enqueue-time `Date.now()` as `timestamp`; the persisted keys are
`action`, `endpoint`, `data`, `timestamp`, `attempts`, `id` (the spec's
names `method`, `payload`, `enqueueTimestamp` do not occur). -/
theorem claimC9_enqueue_shape (q : List SyncEntry) (nextId : Nat)
    (action endpoint : String) (data : JValue) (now : Nat) :
    addToSyncQueue q nextId action endpoint data now =
      q ++ [⟨nextId, action, endpoint, data, now, 0⟩] ∧
    (⟨nextId, action, endpoint, data, now, 0⟩ : SyncEntry).attempts = 0 ∧
    persistedSyncKeys ⟨nextId, action, endpoint, data, now, 0⟩ =
      ["action", "endpoint", "data", "timestamp", "attempts", "id"] :=
  ⟨rfl, rfl, rfl⟩

/-!
Interleaving model for concurrent `syncPendingData` invocations.  The
function body suspends at each `await`; the coarsest schedule-relevant
suspensions are the `getPendingSyncs()` snapshot read and each per-item
`fetch`/`removeFromSyncQueue` round.  A drain invocation is therefore a
process that first snapshots the queue and then walks its snapshot,
submitting each item once and deleting it from the live queue when the
transport acknowledges it.  Nothing in the source guards against two such
processes running at once (`syncPendingData` is triggered independently by
the `online` event, the service-worker `do-sync` message, and the visit
page's own `online` handler). -/

/-- Control state of one in-flight `syncPendingData` invocation: not yet
past the `getPendingSyncs()` read, or iterating its snapshot at an index. -/
inductive ProcPhase where
  | start : ProcPhase
  | running : List SyncEntry → Nat → ProcPhase
deriving DecidableEq, Repr

/-- Result of advancing one invocation by one atomic step. -/
structure StepOut where
  phase : ProcPhase
  queue : List SyncEntry
  submitted : List SyncEntry
deriving DecidableEq, Repr

/-- One atomic step of a drain invocation against the live queue: a
`start` process snapshots the queue (`await getPendingSyncs()`); a
`running` process at index `i` submits `snap[i]` to the network and, on an
ok response, deletes it from the live queue, then moves to `i+1`; past the
end of its snapshot it is done and idles. -/
def procStep (net : SyncEntry → NetOutcome) (queue : List SyncEntry) :
    ProcPhase → StepOut
  | ProcPhase.start => ⟨ProcPhase.running queue 0, queue, []⟩
  | ProcPhase.running snap i =>
    match snap[i]? with
    | none => ⟨ProcPhase.running snap i, queue, []⟩
    | some item =>
      match net item with
      | NetOutcome.ok =>
          ⟨ProcPhase.running snap (i + 1), removeFromSyncQueue queue item.id,
            [item]⟩
      | NetOutcome.httpError => ⟨ProcPhase.running snap (i + 1), queue, [item]⟩
      | NetOutcome.netFail => ⟨ProcPhase.running snap (i + 1), queue, [item]⟩

/-- Joint state of two concurrently launched drain invocations over one
shared queue, with the interleaved submission trace. -/
structure ConcState where
  queue : List SyncEntry
  procA : ProcPhase
  procB : ProcPhase
  log : List SyncEntry
deriving DecidableEq, Repr

/-- Advance the scheduled invocation (`true` = A, `false` = B) one step. -/
def concStep (net : SyncEntry → NetOutcome) (who : Bool) (s : ConcState) :
    ConcState :=
  if who then
    let out := procStep net s.queue s.procA
    ⟨out.queue, out.phase, s.procB, s.log ++ out.submitted⟩
  else
    let out := procStep net s.queue s.procB
    ⟨out.queue, s.procA, out.phase, s.log ++ out.submitted⟩

/-- Run two concurrently launched drain invocations over initial queue `q`
under an explicit interleaving schedule. -/
def concRun (net : SyncEntry → NetOutcome) (sched : List Bool)
    (q : List SyncEntry) : ConcState :=
  sched.foldl (fun s w => concStep net w s)
    ⟨q, ProcPhase.start, ProcPhase.start, []⟩

/-- Number of network submissions in trace `l` that carry queue id `i`. -/
def subCount (l : List SyncEntry) (i : Nat) : Nat :=
  l.countP (fun e => decide (e.id = i))

/-- Number of submissions of id `i` an invocation in phase `ph` has made. -/
def procCount : ProcPhase → Nat → Nat
  | ProcPhase.start, _ => 0
  | ProcPhase.running snap i, n => subCount (snap.take i) n

/-- Snapshot ids of a running invocation are pairwise distinct. -/
def phaseIds : ProcPhase → Prop
  | ProcPhase.start => True
  | ProcPhase.running snap _ => (snap.map SyncEntry.id).Nodup

theorem subCount_append (l₁ l₂ : List SyncEntry) (i : Nat) :
    subCount (l₁ ++ l₂) i = subCount l₁ i + subCount l₂ i :=
  List.countP_append _ _ _

theorem subCount_eq_count_map (l : List SyncEntry) (i : Nat) :
    subCount l i = (l.map SyncEntry.id).count i := by
  induction l with
  | nil => simp [subCount]
  | cons a t ih =>
      by_cases h : a.id = i <;>
        simp [subCount, List.countP_cons, List.count_cons, h, ih,
          subCount] at * <;> omega

theorem subCount_le_one_of_nodup {l : List SyncEntry}
    (h : (l.map SyncEntry.id).Nodup) (i : Nat) : subCount l i ≤ 1 := by
  rw [subCount_eq_count_map]
  exact List.nodup_iff_count_le_one.mp h i

theorem filter_preserves_idsNodup {q : List SyncEntry}
    (h : (q.map SyncEntry.id).Nodup) (p : SyncEntry → Bool) :
    ((q.filter p).map SyncEntry.id).Nodup :=
  h.sublist ((List.filter_sublist q).map SyncEntry.id)

theorem procCount_le_one {ph : ProcPhase} (h : phaseIds ph) (i : Nat) :
    procCount ph i ≤ 1 := by
  cases ph with
  | start => exact Nat.zero_le 1
  | running snap j =>
      calc procCount (ProcPhase.running snap j) i
          = subCount (snap.take j) i := rfl
        _ ≤ subCount snap i := List.Sublist.countP_le _ (snap.take_sublist j)
        _ ≤ 1 := subCount_le_one_of_nodup h i

theorem procStep_spec (net : SyncEntry → NetOutcome) (queue : List SyncEntry)
    (ph : ProcPhase) (hph : phaseIds ph)
    (hq : (queue.map SyncEntry.id).Nodup) :
    (∀ i, procCount (procStep net queue ph).phase i =
        procCount ph i + subCount (procStep net queue ph).submitted i) ∧
    phaseIds (procStep net queue ph).phase ∧
    (((procStep net queue ph).queue.map SyncEntry.id).Nodup) := by
  cases ph with
  | start =>
      refine ⟨fun i => ?_, hq, hq⟩
      simp [procStep, procCount, subCount]
  | running snap j =>
      cases hj : snap[j]? with
      | none =>
          refine ⟨fun i => ?_, ?_, ?_⟩ <;>
            simp only [procStep, hj] <;>
            first
              | simp [procCount, subCount]
              | exact hph
              | exact hq
      | some item =>
          have htake : snap.take (j + 1) = snap.take j ++ [item] := by
            rw [List.take_succ, hj]
            rfl
          have hcount : ∀ i,
              subCount (snap.take (j + 1)) i =
                subCount (snap.take j) i + subCount [item] i := by
            intro i
            rw [htake, subCount_append]
          cases hn : net item with
          | ok =>
              refine ⟨fun i => ?_, ?_, ?_⟩
              · simp only [procStep, hj, hn, procCount]
                exact hcount i
              · simp only [procStep, hj, hn]
                exact hph
              · simp only [procStep, hj, hn, removeFromSyncQueue]
                exact filter_preserves_idsNodup hq _
          | httpError =>
              refine ⟨fun i => ?_, ?_, ?_⟩
              · simp only [procStep, hj, hn, procCount]
                exact hcount i
              · simp only [procStep, hj, hn]
                exact hph
              · simp only [procStep, hj, hn]
                exact hq
          | netFail =>
              refine ⟨fun i => ?_, ?_, ?_⟩
              · simp only [procStep, hj, hn, procCount]
                exact hcount i
              · simp only [procStep, hj, hn]
                exact hph
              · simp only [procStep, hj, hn]
                exact hq

/-- Invariant of the two-invocation interleaving: the trace contains, per
id, exactly the submissions the two invocations have made so far; snapshot
and queue ids stay pairwise distinct. -/
def concInv (s : ConcState) : Prop :=
  (∀ i, subCount s.log i = procCount s.procA i + procCount s.procB i) ∧
  phaseIds s.procA ∧ phaseIds s.procB ∧ (s.queue.map SyncEntry.id).Nodup

theorem concStep_inv (net : SyncEntry → NetOutcome) (who : Bool)
    {s : ConcState} (h : concInv s) : concInv (concStep net who s) := by
  obtain ⟨hlog, hA, hB, hq⟩ := h
  cases who with
  | true =>
      obtain ⟨hcnt, hph, hq2⟩ := procStep_spec net s.queue s.procA hA hq
      refine ⟨fun i => ?_, hph, hB, hq2⟩
      simp only [concStep, if_pos]
      rw [subCount_append, hlog i, hcnt i]
      omega
  | false =>
      obtain ⟨hcnt, hph, hq2⟩ := procStep_spec net s.queue s.procB hB hq
      refine ⟨fun i => ?_, hA, hph, hq2⟩
      simp only [concStep, Bool.false_eq_true, if_neg, not_false_iff]
      rw [subCount_append, hlog i, hcnt i]
      omega

theorem concRun_inv (net : SyncEntry → NetOutcome) (sched : List Bool)
    (q : List SyncEntry) (hq : (q.map SyncEntry.id).Nodup) :
    concInv (concRun net sched q) := by
  have base : concInv ⟨q, ProcPhase.start, ProcPhase.start, []⟩ :=
    ⟨fun i => by simp [subCount, procCount], trivial, trivial, hq⟩
  have gen : ∀ (l : List Bool) (s : ConcState), concInv s →
      concInv (l.foldl (fun s w => concStep net w s) s) := by
    intro l
    induction l with
    | nil => intro s hs; exact hs
    | cons w rest ih =>
        intro s hs
        exact ih _ (concStep_inv net w hs)
  exact gen sched _ base

def alwaysOkNet : SyncEntry → NetOutcome := fun _ => NetOutcome.ok

theorem claimC4_counterexample :
    subCount (concRun alwaysOkNet [true, false, true, false] [wEntry1]).log
        wEntry1.id = 2 := by
  decide

/-- C4: amended — `syncPendingData` has no overlapping-invocation guard, so
two drains launched concurrently over the same queue can both snapshot the
queue before either deletes an entry and each submit that entry once; the
bound the code does give is one submission per invocation, hence at most
two submissions per queue id for two concurrent invocations, under every
interleaving schedule. -/
theorem claimC4_at_most_once_per_invocation (net : SyncEntry → NetOutcome)
    (sched : List Bool) (q : List SyncEntry)
    (hq : (q.map SyncEntry.id).Nodup) (i : Nat) :
    subCount (concRun net sched q).log i ≤ 2 := by
  obtain ⟨hlog, hA, hB, _⟩ := concRun_inv net sched q hq
  have := procCount_le_one hA i
  have := procCount_le_one hB i
  rw [hlog i]
  omega

theorem claimC4_witness :
    (([wEntry1].map SyncEntry.id).Nodup) ∧
    subCount (concRun alwaysOkNet [true, false, true, false] [wEntry1]).log
        wEntry1.id ≤ 2 :=
  ⟨by decide,
    claimC4_at_most_once_per_invocation alwaysOkNet
      [true, false, true, false] [wEntry1] (by decide) wEntry1.id⟩

/-!
Service-worker interception layer, `src/static/sw.js` (fetch handler,
lines 46-123).  A handled request either resolves with a `Response` or the
`respondWith` promise rejects, surfacing a network error to the caller;
`FetchResult` covers both.  Cache semantics follow the Cache API: records
are keyed by URL, and a request whose method is not GET matches nothing
(`ignoreMethod` is never passed). -/

/-- An outbound request as the fetch handler sees it: the pieces of
`new URL(event.request.url)` it inspects, the method, and whether the
`Accept` header includes `text/html`. -/
structure Request where
  hostname : String
  pathname : String
  method : String
  acceptHtml : Bool
deriving DecidableEq, Repr

/-- An HTTP response: body text and status code. -/
structure Response where
  body : String
  status : Nat
deriving DecidableEq, Repr

/-- `response.ok`: status in the 200-299 range. -/
def Response.ok (r : Response) : Bool :=
  decide (200 ≤ r.status) && decide (r.status < 300)

/-- What a fetch (or a whole `respondWith` chain) settles to: a response,
or a rejection surfaced to the requester as a network error. -/
inductive FetchResult where
  | success : Response → FetchResult
  | failure : FetchResult
deriving DecidableEq, Repr

/-- The URL a request is cached under. -/
def Request.url (r : Request) : String := r.hostname ++ r.pathname

/-- The three named caches of `sw.js`: `CACHE_NAME` (app shell),
`TILE_CACHE` (map tiles), `DATA_CACHE` (API GET responses). -/
structure CacheState where
  appCache : List (String × Response)
  tileCache : List (String × Response)
  dataCache : List (String × Response)
deriving DecidableEq, Repr

def cacheLookup (c : List (String × Response)) (u : String) : Option Response :=
  (c.find? (fun p => decide (p.1 = u))).map Prod.snd

/-- `cache.match(request)`: a non-GET request matches nothing. -/
def cacheMatch (c : List (String × Response)) (req : Request) : Option Response :=
  if req.method = "GET" then cacheLookup c req.url else none

/-- `cache.put(request, response)`: store or overwrite under the URL. -/
def cachePut (c : List (String × Response)) (u : String) (r : Response) :
    List (String × Response) :=
  (u, r) :: c.filter (fun p => p.1 ≠ u)

/-- `caches.match(request)`: search every cache for a match. -/
def cachesMatch (cs : CacheState) (req : Request) : Option Response :=
  match cacheMatch cs.appCache req with
  | some r => some r
  | none =>
    match cacheMatch cs.tileCache req with
    | some r => some r
    | none => cacheMatch cs.dataCache req

/-- `caches.match('/')`: search every cache for a bare URL (a GET match). -/
def cachesMatchUrl (cs : CacheState) (u : String) : Option Response :=
  match cacheLookup cs.appCache u with
  | some r => some r
  | none =>
    match cacheLookup cs.tileCache u with
    | some r => some r
    | none => cacheLookup cs.dataCache u

/-- `String.includes`: `sub` occurs contiguously somewhere in `s`. -/
def strIncludes (s sub : String) : Bool :=
  (List.range (s.toList.length + 1)).any
    (fun i => sub.toList.isPrefixOf (s.toList.drop i))

/-- The tile-host test of the fetch handler (`sw.js` lines 50-52). -/
def isTileHost (h : String) : Bool :=
  strIncludes h "tile.openstreetmap.org" ||
  strIncludes h "arcgisonline.com" ||
  strIncludes h "server.arcgisonline.com"

/-- The API test of the fetch handler (`sw.js` line 73):
`url.pathname.startsWith('/api/')`. -/
def isApiPath (p : String) : Bool := "/api/".toList.isPrefixOf p.toList

/-- `new Response('', { status: 404 })` — the per-tile offline placeholder
(`sw.js` line 64). -/
def emptyTilePlaceholder : Response := ⟨"", 404⟩

/-- `new Response(JSON.stringify({ offline: true, error: 'No connection' }),
{ headers: ... })` (`sw.js` lines 90-92): the `ResponseInit` passes no
`status`, so the constructor default 200 applies. -/
def offlineMarker : Response :=
  ⟨"\x7b\"offline\":true,\"error\":\"No connection\"\x7d", 200⟩

/-- The tile branch (`sw.js` lines 53-68): serve from `TILE_CACHE` when
present; otherwise fetch, store the network response (whatever its status)
and return it; if the fetch throws, return the empty placeholder. -/
def tileBranch (cs : CacheState) (req : Request) (net : FetchResult) :
    FetchResult × CacheState :=
  match cacheMatch cs.tileCache req with
  | some r => (FetchResult.success r, cs)
  | none =>
    match net with
    | FetchResult.success resp =>
        (FetchResult.success resp,
          { cs with tileCache := cachePut cs.tileCache req.url resp })
    | FetchResult.failure => (FetchResult.success emptyTilePlaceholder, cs)

/-- The API branch (`sw.js` lines 73-97): always fetch; cache the response
in `DATA_CACHE` only for ok GET responses; if the fetch throws, fall back
to `caches.match` and, failing that, answer with the offline marker. -/
def apiBranch (cs : CacheState) (req : Request) (net : FetchResult) :
    FetchResult × CacheState :=
  match net with
  | FetchResult.success resp =>
      if req.method = "GET" ∧ resp.ok = true then
        (FetchResult.success resp,
          { cs with dataCache := cachePut cs.dataCache req.url resp })
      else (FetchResult.success resp, cs)
  | FetchResult.failure =>
      match cachesMatch cs req with
      | some cached => (FetchResult.success cached, cs)
      | none => (FetchResult.success offlineMarker, cs)

/-- The default branch (`sw.js` lines 100-122): cache-first over every
cache; on a miss fetch, caching ok GET responses in `CACHE_NAME`; if the
fetch throws, serve the cached root page to HTML navigations (when the
root is not cached, `respondWith` resolves with `undefined` and the fetch
fails), else a 503 `Offline` response. -/
def staticBranch (cs : CacheState) (req : Request) (net : FetchResult) :
    FetchResult × CacheState :=
  match cachesMatch cs req with
  | some cached => (FetchResult.success cached, cs)
  | none =>
    match net with
    | FetchResult.success resp =>
        if resp.ok = true ∧ req.method = "GET" then
          (FetchResult.success resp,
            { cs with appCache := cachePut cs.appCache req.url resp })
        else (FetchResult.success resp, cs)
    | FetchResult.failure =>
        if req.acceptHtml then
          match cachesMatchUrl cs "/" with
          | some root => (FetchResult.success root, cs)
          | none => (FetchResult.failure, cs)
        else (FetchResult.success ⟨"Offline", 503⟩, cs)

/-- The fetch handler dispatch (`sw.js` lines 46-123): tile hosts first,
then `/api/` paths, then everything else. -/
def handleFetch (cs : CacheState) (req : Request) (net : FetchResult) :
    FetchResult × CacheState :=
  if isTileHost req.hostname then tileBranch cs req net
  else if isApiPath req.pathname then apiBranch cs req net
  else staticBranch cs req net

def emptyCaches : CacheState := ⟨[], [], []⟩

def cexC5Req : Request := ⟨"localhost", "/api/projects/p1/gps", "POST", false⟩

theorem claimC5_counterexample :
    isTileHost cexC5Req.hostname = false ∧
    isApiPath cexC5Req.pathname = true ∧
    cexC5Req.method ≠ "GET" ∧
    (handleFetch emptyCaches cexC5Req FetchResult.failure).1 ≠
      FetchResult.failure ∧
    (handleFetch emptyCaches cexC5Req FetchResult.failure).1 =
      FetchResult.success offlineMarker := by
  refine ⟨?_, by decide, by decide, ?_, ?_⟩ <;> decide

/-- C5: amended — an `/api/` mutation (non-GET) is always passed through to
the network and its response is returned untouched; no cache is read or
written for it; but on network failure the handler does NOT propagate the
failure: it answers with the substitute offline-marker response. -/
theorem claimC5_mutation_passthrough (cs : CacheState) (req : Request)
    (net : FetchResult) (htile : isTileHost req.hostname = false)
    (hapi : isApiPath req.pathname = true) (hmut : req.method ≠ "GET") :
    (handleFetch cs req net).2 = cs ∧
    (∀ resp, net = FetchResult.success resp →
      (handleFetch cs req net).1 = FetchResult.success resp) ∧
    (net = FetchResult.failure →
      (handleFetch cs req net).1 = FetchResult.success offlineMarker) := by
  have hdispatch : handleFetch cs req net = apiBranch cs req net := by
    simp [handleFetch, htile, hapi]
  have hnomatch : ∀ c, cacheMatch c req = none := by
    intro c
    simp [cacheMatch, hmut]
  cases net with
  | success resp =>
      have hcond : ¬ (req.method = "GET" ∧ resp.ok = true) :=
        fun h => hmut h.1
      refine ⟨?_, ?_, ?_⟩
      · rw [hdispatch]
        simp [apiBranch, hcond]
      · intro r hr
        cases hr
        rw [hdispatch]
        simp [apiBranch, hcond]
      · intro h
        cases h
  | failure =>
      have hmiss : cachesMatch cs req = none := by
        simp [cachesMatch, hnomatch]
      refine ⟨?_, ?_, ?_⟩
      · rw [hdispatch]
        simp [apiBranch, hmiss]
      · intro r hr
        cases hr
      · intro _
        rw [hdispatch]
        simp [apiBranch, hmiss]

theorem claimC5_witness :
    (isTileHost cexC5Req.hostname = false ∧ isApiPath cexC5Req.pathname = true ∧
      cexC5Req.method ≠ "GET") ∧
    ((handleFetch emptyCaches cexC5Req FetchResult.failure).2 = emptyCaches ∧
      (∀ resp, FetchResult.failure = FetchResult.success resp →
        (handleFetch emptyCaches cexC5Req FetchResult.failure).1 =
          FetchResult.success resp) ∧
      (FetchResult.failure = FetchResult.failure →
        (handleFetch emptyCaches cexC5Req FetchResult.failure).1 =
          FetchResult.success offlineMarker)) :=
  ⟨⟨by decide, by decide, by decide⟩,
    claimC5_mutation_passthrough emptyCaches cexC5Req FetchResult.failure
      (by decide) (by decide) (by decide)⟩

/-- C8: for a request to a known tile host the handler is cache-first — a
cached tile is returned with the cache untouched, whatever the network
would do — and an uncached tile whose fetch fails yields the empty
placeholder response; the handler never rejects. -/
theorem claimC8_tile_cache_first (cs : CacheState) (req : Request)
    (htile : isTileHost req.hostname = true) :
    (∀ r, cacheMatch cs.tileCache req = some r →
      ∀ net, (handleFetch cs req net).1 = FetchResult.success r ∧
        (handleFetch cs req net).2 = cs) ∧
    (cacheMatch cs.tileCache req = none →
      (handleFetch cs req FetchResult.failure).1 =
          FetchResult.success emptyTilePlaceholder ∧
        (handleFetch cs req FetchResult.failure).2 = cs) ∧
    (∀ net, ∃ resp, (handleFetch cs req net).1 = FetchResult.success resp) := by
  have hdispatch : ∀ net, handleFetch cs req net = tileBranch cs req net := by
    intro net
    simp [handleFetch, htile]
  refine ⟨?_, ?_, ?_⟩
  · intro r hr net
    rw [hdispatch]
    simp [tileBranch, hr]
  · intro hnone
    rw [hdispatch]
    simp [tileBranch, hnone]
  · intro net
    rw [hdispatch]
    cases hm : cacheMatch cs.tileCache req with
    | some r => exact ⟨r, by simp [tileBranch, hm]⟩
    | none =>
        cases net with
        | success resp => exact ⟨resp, by simp [tileBranch, hm]⟩
        | failure => exact ⟨emptyTilePlaceholder, by simp [tileBranch, hm]⟩

def wTileResp : Response := ⟨"tilebytes", 200⟩

def wTileReq : Request :=
  ⟨"server.arcgisonline.com",
    "/ArcGIS/rest/services/World_Imagery/MapServer/tile/14/100/200", "GET",
    false⟩

def wTileCaches : CacheState := ⟨[], [(wTileReq.url, wTileResp)], []⟩

theorem claimC8_witness :
    (isTileHost wTileReq.hostname = true) ∧
    ((∀ r, cacheMatch wTileCaches.tileCache wTileReq = some r →
      ∀ net, (handleFetch wTileCaches wTileReq net).1 = FetchResult.success r ∧
        (handleFetch wTileCaches wTileReq net).2 = wTileCaches) ∧
    (cacheMatch wTileCaches.tileCache wTileReq = none →
      (handleFetch wTileCaches wTileReq FetchResult.failure).1 =
          FetchResult.success emptyTilePlaceholder ∧
        (handleFetch wTileCaches wTileReq FetchResult.failure).2 = wTileCaches) ∧
    (∀ net, ∃ resp,
      (handleFetch wTileCaches wTileReq net).1 = FetchResult.success resp)) :=
  ⟨by decide, claimC8_tile_cache_first wTileCaches wTileReq (by decide)⟩

/-- C10: when an uncached `/api/` request fails at the network, the handler
returns the structured offline marker: body
`{"offline":true,"error":"No connection"}`, status 200 (the constructor
default), hence `ok = true` — indistinguishable by `response.ok` alone from
a successful server response. -/
theorem claimC10_offline_marker_is_ok (cs : CacheState) (req : Request)
    (htile : isTileHost req.hostname = false)
    (hapi : isApiPath req.pathname = true)
    (hmiss : cachesMatch cs req = none) :
    (handleFetch cs req FetchResult.failure).1 =
      FetchResult.success offlineMarker ∧
    offlineMarker.body = "\x7b\"offline\":true,\"error\":\"No connection\"\x7d" ∧
    offlineMarker.status = 200 ∧
    offlineMarker.ok = true ∧
    (∀ server : Response, server.ok = true → offlineMarker.ok = server.ok) := by
  refine ⟨?_, rfl, rfl, rfl, fun server h => by rw [h]; rfl⟩
  simp [handleFetch, htile, hapi, apiBranch, hmiss]

theorem claimC10_witness :
    (isTileHost cexC5Req.hostname = false ∧ isApiPath cexC5Req.pathname = true ∧
      cachesMatch emptyCaches cexC5Req = none) ∧
    ((handleFetch emptyCaches cexC5Req FetchResult.failure).1 =
        FetchResult.success offlineMarker ∧
      offlineMarker.body =
        "\x7b\"offline\":true,\"error\":\"No connection\"\x7d" ∧
      offlineMarker.status = 200 ∧
      offlineMarker.ok = true ∧
      (∀ server : Response, server.ok = true → offlineMarker.ok = server.ok)) :=
  ⟨⟨by decide, by decide, by decide⟩,
    claimC10_offline_marker_is_ok emptyCaches cexC5Req (by decide) (by decide)
      (by decide)⟩

/-!
GPS capture (`src/unnamed/part_001`, visit page `saveGPSPoint` lines
963-1035 and offline manager `saveGPSPointLocal` lines 295-311).  In the
source the point object's `timestamp` is `new Date().toISOString()` — a
string — while `saveGPSPointLocal` spreads the point and then overwrites
`timestamp` with `Date.now()` — a number; the two representations are kept
apart by `TimeVal`. -/

/-- A timestamp value: an ISO-8601 string (`new Date().toISOString()`) or a
numeric epoch-milliseconds value (`Date.now()`), each carrying its instant.
The two are distinct JS values even for the same instant. -/
inductive TimeVal where
  | isoString : Nat → TimeVal
  | epochMs : Nat → TimeVal
deriving DecidableEq, Repr

/-- The point object built in `saveGPSPoint` (lines 979-989). -/
structure GPSPoint where
  label : String
  lat : ℚ
  lon : ℚ
  altitude_m : Option ℚ
  elevation_ft : Option ℤ
  altitude_accuracy : Option ℚ
  accuracy : Option ℚ
  «type» : String
  timestamp : TimeVal
deriving DecidableEq, Repr

/-- JS `x || null` on an optional number: `0` is falsy and becomes `null`. -/
def jsOrNull (x : Option ℚ) : Option ℚ :=
  match x with
  | some v => if v = 0 then none else some v
  | none => none

/-- The point literal of `saveGPSPoint` (lines 973-989): elevation in feet
is `Math.round(altitude * 3.28084)` when an altitude reading exists,
`altitude_accuracy` and `accuracy` go through `|| null`, `type` is the
pending capture tag, and `timestamp` is the capture-time ISO string. -/
def mkCapturedPoint (label : String) (lat lon : ℚ) (altitudeMeters : Option ℚ)
    (altitudeAccuracy accuracy : Option ℚ) (pendingLabel : String)
    (captureIso : Nat) : GPSPoint :=
  { label := label, lat := lat, lon := lon,
    altitude_m := altitudeMeters,
    elevation_ft := altitudeMeters.map (fun m => round (m * (328084 / 100000 : ℚ))),
    altitude_accuracy := jsOrNull altitudeAccuracy,
    accuracy := jsOrNull accuracy,
    «type» := pendingLabel,
    timestamp := TimeVal.isoString captureIso }

/-- A record of the `gps_points` store: keyPath `localId` (auto-increment),
plus the fields `saveGPSPointLocal` writes. -/
structure StoredGPSRecord where
  localId : Nat
  project_id : String
  label : String
  lat : ℚ
  lon : ℚ
  altitude_m : Option ℚ
  elevation_ft : Option ℤ
  altitude_accuracy : Option ℚ
  accuracy : Option ℚ
  «type» : String
  synced : Bool
  timestamp : TimeVal
deriving DecidableEq, Repr

/-- `saveGPSPointLocal(projectId, point)` (lines 295-311): stores
`{...point, project_id: projectId, synced: false, timestamp: Date.now()}`
— the spread copies every point field, then the trailing `timestamp` key
OVERWRITES the point's ISO capture timestamp with the numeric save time. -/
def saveGPSPointLocal (projectId : String) (p : GPSPoint) (now : Nat)
    (localId : Nat) : StoredGPSRecord :=
  { localId := localId, project_id := projectId,
    label := p.label, lat := p.lat, lon := p.lon,
    altitude_m := p.altitude_m, elevation_ft := p.elevation_ft,
    altitude_accuracy := p.altitude_accuracy, accuracy := p.accuracy,
    «type» := p.«type»,
    synced := false,
    timestamp := TimeVal.epochMs now }

/-- The three effects of the offline path of `saveGPSPoint` (lines
999-1009): the record stored via `saveGPSPointLocal`, the
`addToSyncQueue('POST', endpoint, point)` call, and the point pushed onto
`projectData.gps_points`. -/
structure OfflineSaveEffects where
  stored : StoredGPSRecord
  queuedAction : String
  queuedEndpoint : String
  queuedPayload : GPSPoint
  appended : GPSPoint
deriving DecidableEq, Repr

def saveGPSPointOffline (projectId : String) (point : GPSPoint)
    (saveNow : Nat) (localId : Nat) : OfflineSaveEffects :=
  { stored := saveGPSPointLocal projectId point saveNow localId,
    queuedAction := "POST",
    queuedEndpoint := "/api/projects/" ++ projectId ++ "/gps",
    queuedPayload := point,
    appended := point }

def cexC6Point : GPSPoint :=
  mkCapturedPoint "Well" 45 (-122) none none none "well_location" 1700000000

theorem claimC6_counterexample :
    (saveGPSPointOffline "p1" cexC6Point 1700000500 1).appended.timestamp =
      TimeVal.isoString 1700000000 ∧
    (saveGPSPointOffline "p1" cexC6Point 1700000500 1).stored.timestamp ≠
      (saveGPSPointOffline "p1" cexC6Point 1700000500 1).appended.timestamp := by
  exact ⟨rfl, by decide⟩

/-- C6: amended — the payload enqueued for later sync is the very point
object appended to in-memory project state (identical in every field), and
the record written to the local GPS-point store agrees with the appended
point on label, lat, lon, altitude fields, accuracy and type — but its
`timestamp` is overwritten with the numeric save time `Date.now()`, so it
differs from the appended point's ISO capture timestamp. -/
theorem claimC6_offline_point_identity (projectId : String) (p : GPSPoint)
    (saveNow localId : Nat) :
    (saveGPSPointOffline projectId p saveNow localId).queuedPayload =
      (saveGPSPointOffline projectId p saveNow localId).appended ∧
    (saveGPSPointOffline projectId p saveNow localId).queuedPayload = p ∧
    (saveGPSPointOffline projectId p saveNow localId).stored.label = p.label ∧
    (saveGPSPointOffline projectId p saveNow localId).stored.lat = p.lat ∧
    (saveGPSPointOffline projectId p saveNow localId).stored.lon = p.lon ∧
    (saveGPSPointOffline projectId p saveNow localId).stored.altitude_m =
      p.altitude_m ∧
    (saveGPSPointOffline projectId p saveNow localId).stored.elevation_ft =
      p.elevation_ft ∧
    (saveGPSPointOffline projectId p saveNow localId).stored.altitude_accuracy =
      p.altitude_accuracy ∧
    (saveGPSPointOffline projectId p saveNow localId).stored.accuracy =
      p.accuracy ∧
    (saveGPSPointOffline projectId p saveNow localId).stored.«type» = p.«type» ∧
    (saveGPSPointOffline projectId p saveNow localId).stored.timestamp =
      TimeVal.epochMs saveNow :=
  ⟨rfl, rfl, rfl, rfl, rfl, rfl, rfl, rfl, rfl, rfl, rfl⟩

/-!
Tile prefetcher, `src/static/sw.js` lines 179-201.  `latLngToTile` is the
slippy-map projection: `x = Math.floor((lng + 180) / 360 * 2^zoom)` and
`y = Math.floor((1 - Math.log(Math.tan(lat·π/180) + 1/Math.cos(lat·π/180))
/ Math.PI) / 2 * 2^zoom)`; coordinates are modelled as rationals (exact
JS number inputs) and the transcendental Mercator transform over ℝ.
`getTileUrls` enumerates, for each zoom level from the fixed minimum 14 up
to `maxZoom`, x from the south-west corner tile to the north-east corner
tile and y from the north-east corner tile to the south-west corner tile,
emitting `baseUrl/z/y/x`; a URL is identified with its `(z, y, x)` triple,
which determines the URL string uniquely. -/

/-- The x tile index of a longitude at a zoom level. -/
def tileX (lng : ℚ) (z : ℕ) : ℤ := ⌊(lng + 180) / 360 * 2 ^ z⌋

/-- The Mercator y fraction of a latitude in degrees. -/
noncomputable def mercY (lat : ℚ) : ℝ :=
  (1 - Real.log (Real.tan ((lat : ℝ) * Real.pi / 180) +
      1 / Real.cos ((lat : ℝ) * Real.pi / 180)) / Real.pi) / 2

/-- The y tile index of a latitude at a zoom level. -/
noncomputable def tileY (lat : ℚ) (z : ℕ) : ℤ := ⌊mercY lat * 2 ^ z⌋

/-- Result of `latLngToTile` (`sw.js` lines 197-201). -/
structure TilePair where
  x : ℤ
  y : ℤ

noncomputable def latLngToTile (lat lng : ℚ) (z : ℕ) : TilePair :=
  ⟨tileX lng z, tileY lat z⟩

/-- The `bounds` argument of `getTileUrls`, in degrees. -/
structure Bounds where
  north : ℚ
  south : ℚ
  east : ℚ
  west : ℚ

/-- A prefetch URL `baseUrl/z/y/x`, identified by its path components. -/
structure TileUrl where
  z : ℕ
  y : ℤ
  x : ℤ
deriving DecidableEq, Repr

/-- The integers from `lo` to `hi` inclusive (a JS `for(v=lo; v<=hi; v++)`
loop's iteration space). -/
def intRange (lo hi : ℤ) : List ℤ :=
  (List.range (hi + 1 - lo).toNat).map (fun (i : ℕ) => lo + (i : ℤ))

/-- The URLs one zoom level contributes in `getTileUrls`: with
`minTile = latLngToTile(south, west, z)` and
`maxTile = latLngToTile(north, east, z)`, the loops
`for (x = minTile.x; x <= maxTile.x; x++)`
`for (y = maxTile.y; y <= minTile.y; y++)` push `baseUrl/z/y/x`. -/
noncomputable def tileLayer (b : Bounds) (z : ℕ) : List TileUrl :=
  (intRange (latLngToTile b.south b.west z).x
      (latLngToTile b.north b.east z).x).flatMap (fun x =>
    (intRange (latLngToTile b.north b.east z).y
        (latLngToTile b.south b.west z).y).map (fun y => ⟨z, y, x⟩))

/-- `getTileUrls(bounds, maxZoom)` (`sw.js` lines 179-195):
`for (z = 14; z <= maxZoom; z++)` over the per-zoom loops. -/
noncomputable def getTileUrls (b : Bounds) (maxZoom : ℕ) : List TileUrl :=
  (List.range' 14 (maxZoom + 1 - 14)).flatMap (tileLayer b)

theorem mem_intRange {lo hi a : ℤ} : a ∈ intRange lo hi ↔ lo ≤ a ∧ a ≤ hi := by
  unfold intRange
  rw [List.mem_map]
  constructor
  · rintro ⟨i, hi2, rfl⟩
    rw [List.mem_range] at hi2
    omega
  · intro h
    refine ⟨(a - lo).toNat, ?_, by omega⟩
    rw [List.mem_range]
    omega

theorem intRange_nodup (lo hi : ℤ) : (intRange lo hi).Nodup := by
  unfold intRange
  apply List.Nodup.map ?_ (List.nodup_range _)
  intro i j h
  have h2 : lo + (i : ℤ) = lo + (j : ℤ) := h
  omega

theorem tileX_mono {l1 l2 : ℚ} (h : l1 ≤ l2) (z : ℕ) :
    tileX l1 z ≤ tileX l2 z := by
  apply Int.floor_le_floor
  have h2 : (0 : ℚ) ≤ 2 ^ z := by positivity
  have h3 : (l1 + 180) / 360 ≤ (l2 + 180) / 360 := by linarith
  exact mul_le_mul_of_nonneg_right h3 h2

theorem tan_add_one_div_cos_eq {x : ℝ} (hx1 : -(Real.pi / 2) < x)
    (hx2 : x < Real.pi / 2) :
    Real.tan x + 1 / Real.cos x = Real.tan (x / 2 + Real.pi / 4) := by
  have hpi := Real.pi_pos
  have hcos : 0 < Real.cos x := Real.cos_pos_of_mem_Ioo ⟨hx1, hx2⟩
  obtain ⟨a, ha⟩ : ∃ a, a = x / 2 + Real.pi / 4 := ⟨_, rfl⟩
  rw [← ha]
  have ha1 : 0 < a := by rw [ha]; linarith
  have ha2 : a < Real.pi / 2 := by rw [ha]; linarith
  have hsina : 0 < Real.sin a := Real.sin_pos_of_pos_of_lt_pi ha1 (by linarith)
  have hcosa : 0 < Real.cos a := Real.cos_pos_of_mem_Ioo ⟨by linarith, ha2⟩
  have hpyth := Real.sin_sq_add_cos_sq a
  have h2a : 2 * a = x + Real.pi / 2 := by rw [ha]; ring
  have hsinx : Real.sin x = -Real.cos (2 * a) := by
    rw [h2a, Real.cos_add_pi_div_two, neg_neg]
  have hcosx : Real.cos x = Real.sin (2 * a) := by
    rw [h2a, Real.sin_add_pi_div_two]
  have hsum : Real.sin x + 1 = 2 * Real.sin a ^ 2 := by
    rw [hsinx, Real.cos_two_mul]
    linear_combination (-2 : ℝ) * hpyth
  have hcos2 : Real.cos x = 2 * Real.sin a * Real.cos a := by
    rw [hcosx, Real.sin_two_mul]
  rw [Real.tan_eq_sin_div_cos, Real.tan_eq_sin_div_cos, div_add_div_same,
    hsum, hcos2]
  rw [show (2 : ℝ) * Real.sin a ^ 2 = Real.sin a * (2 * Real.sin a) by ring,
    show (2 : ℝ) * Real.sin a * Real.cos a = Real.cos a * (2 * Real.sin a) by
      ring]
  rw [mul_div_mul_right _ _ (by positivity : (2 : ℝ) * Real.sin a ≠ 0)]

theorem rad_mem {p : ℚ} (hp1 : -90 < p) (hp2 : p < 90) :
    -(Real.pi / 2) < (p : ℝ) * Real.pi / 180 ∧
      (p : ℝ) * Real.pi / 180 < Real.pi / 2 := by
  have hpi := Real.pi_pos
  have h1 : (-90 : ℝ) < (p : ℝ) := by exact_mod_cast hp1
  have h2 : (p : ℝ) < 90 := by exact_mod_cast hp2
  constructor
  · nlinarith [mul_pos hpi (show (0 : ℝ) < (p : ℝ) + 90 by linarith)]
  · nlinarith [mul_pos hpi (show (0 : ℝ) < 90 - (p : ℝ) by linarith)]

theorem mercY_strictAnti {p q : ℚ} (hp : -90 < p) (hpq : p < q) (hq : q < 90) :
    mercY q < mercY p := by
  have hpi := Real.pi_pos
  obtain ⟨hp1, hp2⟩ := rad_mem hp (hpq.trans hq)
  obtain ⟨hq1, hq2⟩ := rad_mem (hp.trans hpq) hq
  have hlt : (p : ℝ) * Real.pi / 180 < (q : ℝ) * Real.pi / 180 := by
    have : (p : ℝ) < (q : ℝ) := by exact_mod_cast hpq
    nlinarith [mul_pos hpi (show (0 : ℝ) < (q : ℝ) - (p : ℝ) by linarith)]
  set xp := (p : ℝ) * Real.pi / 180 with hxp
  set xq := (q : ℝ) * Real.pi / 180 with hxq
  have hap1 : 0 < xp / 2 + Real.pi / 4 := by linarith
  have hap2 : xp / 2 + Real.pi / 4 < Real.pi / 2 := by linarith
  have haq2 : xq / 2 + Real.pi / 4 < Real.pi / 2 := by linarith
  have htanp : 0 < Real.tan (xp / 2 + Real.pi / 4) :=
    Real.tan_pos_of_pos_of_lt_pi_div_two hap1 hap2
  have htanlt : Real.tan (xp / 2 + Real.pi / 4) <
      Real.tan (xq / 2 + Real.pi / 4) :=
    Real.strictMonoOn_tan ⟨by linarith, hap2⟩ ⟨by linarith, haq2⟩ (by linarith)
  have hlog : Real.log (Real.tan (xp / 2 + Real.pi / 4)) <
      Real.log (Real.tan (xq / 2 + Real.pi / 4)) :=
    Real.log_lt_log htanp htanlt
  unfold mercY
  rw [← hxp, ← hxq, tan_add_one_div_cos_eq hp1 hp2,
    tan_add_one_div_cos_eq hq1 hq2]
  have hdiv : Real.log (Real.tan (xp / 2 + Real.pi / 4)) / Real.pi <
      Real.log (Real.tan (xq / 2 + Real.pi / 4)) / Real.pi :=
    div_lt_div_of_pos_right hlog hpi
  linarith

theorem tileY_antitone {p q : ℚ} (hp : -90 < p) (hpq : p ≤ q) (hq : q < 90)
    (z : ℕ) : tileY q z ≤ tileY p z := by
  rcases eq_or_lt_of_le hpq with rfl | hlt
  · exact le_refl _
  · apply Int.floor_le_floor
    have hy := mercY_strictAnti hp hlt hq
    have h2 : (0 : ℝ) ≤ 2 ^ z := by positivity
    exact mul_le_mul_of_nonneg_right hy.le h2

theorem mem_tileLayer {b : Bounds} {z : ℕ} {t : TileUrl} :
    t ∈ tileLayer b z ↔
      t.z = z ∧
      (latLngToTile b.south b.west z).x ≤ t.x ∧
      t.x ≤ (latLngToTile b.north b.east z).x ∧
      (latLngToTile b.north b.east z).y ≤ t.y ∧
      t.y ≤ (latLngToTile b.south b.west z).y := by
  unfold tileLayer
  simp only [List.mem_flatMap, List.mem_map]
  constructor
  · rintro ⟨x, hx, y, hy, rfl⟩
    rw [mem_intRange] at hx hy
    exact ⟨rfl, hx.1, hx.2, hy.1, hy.2⟩
  · rintro ⟨hz, hx1, hx2, hy1, hy2⟩
    refine ⟨t.x, mem_intRange.mpr ⟨hx1, hx2⟩, t.y,
      mem_intRange.mpr ⟨hy1, hy2⟩, ?_⟩
    cases t
    simp only at hz
    rw [hz]

theorem tileLayer_nodup (b : Bounds) (z : ℕ) : (tileLayer b z).Nodup := by
  unfold tileLayer
  rw [List.nodup_flatMap]
  constructor
  · intro x _
    apply List.Nodup.map ?_ (intRange_nodup _ _)
    intro y1 y2 h
    simpa using h
  · apply List.Pairwise.imp ?_ (intRange_nodup _ _)
    intro x1 x2 hne t ht1 ht2
    simp only [List.mem_map] at ht1 ht2
    obtain ⟨y1, _, rfl⟩ := ht1
    obtain ⟨y2, _, heq⟩ := ht2
    apply hne
    have := congrArg TileUrl.x heq
    simpa using this.symm

theorem mem_getTileUrls {b : Bounds} {maxZoom : ℕ} {t : TileUrl} :
    t ∈ getTileUrls b maxZoom ↔
      14 ≤ t.z ∧ t.z ≤ maxZoom ∧
      (latLngToTile b.south b.west t.z).x ≤ t.x ∧
      t.x ≤ (latLngToTile b.north b.east t.z).x ∧
      (latLngToTile b.north b.east t.z).y ≤ t.y ∧
      t.y ≤ (latLngToTile b.south b.west t.z).y := by
  unfold getTileUrls
  simp only [List.mem_flatMap, List.mem_range'_1]
  constructor
  · rintro ⟨z, hz, ht⟩
    obtain ⟨hzz, h⟩ := mem_tileLayer.mp ht
    subst hzz
    exact ⟨by omega, by omega, h.1, h.2.1, h.2.2.1, h.2.2.2⟩
  · rintro ⟨h14, hmax, h⟩
    exact ⟨t.z, by omega, mem_tileLayer.mpr ⟨rfl, h⟩⟩

theorem getTileUrls_nodup (b : Bounds) (maxZoom : ℕ) :
    (getTileUrls b maxZoom).Nodup := by
  unfold getTileUrls
  rw [List.nodup_flatMap]
  refine ⟨fun z _ => tileLayer_nodup b z, ?_⟩
  apply List.Pairwise.imp ?_ (List.nodup_range' _ _)
  intro z1 z2 hne t ht1 ht2
  exact hne ((mem_tileLayer.mp ht1).1 ▸ (mem_tileLayer.mp ht2).1)

/-- C7: over a geographic bounding box (west ≤ east, −90 < south ≤ north
< 90), `getTileUrls` emits, for each zoom level from the fixed minimum 14
up to `maxZoom`, exactly the tile indices of the rectangle spanned by the
box's two corner tiles under the slippy-map projection, with no duplicate
URLs and no omissions. -/
theorem claimC7_tile_enumeration_exact (b : Bounds) (maxZoom : ℕ)
    (hwe : b.west ≤ b.east) (hsn : b.south ≤ b.north)
    (hs : -90 < b.south) (hn : b.north < 90) :
    (getTileUrls b maxZoom).Nodup ∧
    ∀ t : TileUrl, t ∈ getTileUrls b maxZoom ↔
      (14 ≤ t.z ∧ t.z ≤ maxZoom ∧
        min (latLngToTile b.south b.west t.z).x
            (latLngToTile b.north b.east t.z).x ≤ t.x ∧
        t.x ≤ max (latLngToTile b.south b.west t.z).x
            (latLngToTile b.north b.east t.z).x ∧
        min (latLngToTile b.south b.west t.z).y
            (latLngToTile b.north b.east t.z).y ≤ t.y ∧
        t.y ≤ max (latLngToTile b.south b.west t.z).y
            (latLngToTile b.north b.east t.z).y) := by
  have hx : ∀ z, (latLngToTile b.south b.west z).x ≤
      (latLngToTile b.north b.east z).x := fun z => tileX_mono hwe z
  have hy : ∀ z, (latLngToTile b.north b.east z).y ≤
      (latLngToTile b.south b.west z).y := fun z => tileY_antitone hs hsn hn z
  refine ⟨getTileUrls_nodup b maxZoom, fun t => ?_⟩
  rw [mem_getTileUrls]
  rw [min_eq_left (hx t.z), max_eq_right (hx t.z),
    min_eq_right (hy t.z), max_eq_left (hy t.z)]

def wBounds : Bounds := ⟨46, 45, -122, -123⟩

theorem claimC7_witness :
    (wBounds.west ≤ wBounds.east ∧ wBounds.south ≤ wBounds.north ∧
      -90 < wBounds.south ∧ wBounds.north < 90) ∧
    ((getTileUrls wBounds 15).Nodup ∧
      ∀ t : TileUrl, t ∈ getTileUrls wBounds 15 ↔
        (14 ≤ t.z ∧ t.z ≤ 15 ∧
          min (latLngToTile wBounds.south wBounds.west t.z).x
              (latLngToTile wBounds.north wBounds.east t.z).x ≤ t.x ∧
          t.x ≤ max (latLngToTile wBounds.south wBounds.west t.z).x
              (latLngToTile wBounds.north wBounds.east t.z).x ∧
          min (latLngToTile wBounds.south wBounds.west t.z).y
              (latLngToTile wBounds.north wBounds.east t.z).y ≤ t.y ∧
          t.y ≤ max (latLngToTile wBounds.south wBounds.west t.z).y
              (latLngToTile wBounds.north wBounds.east t.z).y)) :=
  ⟨⟨by decide, by decide, by decide, by decide⟩,
    claimC7_tile_enumeration_exact wBounds 15 (by decide) (by decide)
      (by decide) (by decide)⟩

end FieldApp
